import Mathlib

/-!
Shallow embedding of the client-side simulation core of the game
(src/src/player.ts and the main-loop module), over the real numbers.
Numeric fields of the source are modelled as `ℝ`; the `destroyed` flag as
`Bool`; the optional remote-player id as `Option ℕ`.
-/

open scoped Classical

namespace Game

open Filter

/-- The viewport rectangle (`app.screen`): only `width` and `height` are read. -/
structure Rect where
  width : ℝ
  height : ℝ

/-- World bounds `{width, height}` (`WORLD_SIZE` in the main module). -/
structure WorldBounds where
  width : ℝ
  height : ℝ

/-- The simulation state of the local `Player` (src/src/player.ts): its position
`pos = {x, y}` and its current `radius`. -/
structure PlayerState where
  x : ℝ
  y : ℝ
  radius : ℝ

/-- A `Food` entity: position and `destroyed` flag. -/
structure FoodEnt where
  x : ℝ
  y : ℝ
  destroyed : Bool

/-- A `Bot` entity: position, radius and `destroyed` flag. -/
structure BotEnt where
  x : ℝ
  y : ℝ
  radius : ℝ
  destroyed : Bool

/-- A remote player as seen by the tick (`network.players` entries): position,
radius, `destroyed` flag, and the optional server-assigned id (`p.id`, which the
tick compares against `undefined`). -/
structure RemotePlayer where
  x : ℝ
  y : ℝ
  radius : ℝ
  destroyed : Bool
  id : Option ℕ

/-- The `private velocityMagnitude = 10` constant of the `Player` class. -/
noncomputable def velocityMagnitude : ℝ := 10

/-- `Player.eatPlayer` (src/src/player.ts:43-47): the consumer's radius becomes
`sqrt(radius * radius + playerEaten.radius * playerEaten.radius)` (no bonus
factor) and the eaten player is destroyed. -/
noncomputable def eatPlayer (p : PlayerState) (playerEaten : RemotePlayer) :
    PlayerState × RemotePlayer :=
  ({ p with radius := Real.sqrt (p.radius * p.radius + playerEaten.radius * playerEaten.radius) },
   { playerEaten with destroyed := true })

/-- `Player.eatFood` (src/src/player.ts:49-54): the consumer's radius becomes
`sqrt(radius * radius + FOOD_RADIUS * FOOD_RADIUS) * 1.002` and the food is
destroyed. `FOOD_RADIUS` is imported from the food module, which is not among
the sources; per the spec it is a fixed canonical radius constant whose value
is not pinned down, so it is kept abstract as a parameter here. -/
noncomputable def eatFood (FOOD_RADIUS : ℝ) (p : PlayerState) (foodEaten : FoodEnt) :
    PlayerState × FoodEnt :=
  ({ p with radius := Real.sqrt (p.radius * p.radius + FOOD_RADIUS * FOOD_RADIUS) * 1.002 },
   { foodEaten with destroyed := true })

/-- `Player.eatBot` (src/src/player.ts:74-79): the consumer's radius becomes
`sqrt(radius * radius + botEaten.radius * botEaten.radius) * 1.002` and the
bot is destroyed. -/
noncomputable def eatBot (p : PlayerState) (botEaten : BotEnt) : PlayerState × BotEnt :=
  ({ p with radius := Real.sqrt (p.radius * p.radius + botEaten.radius * botEaten.radius) * 1.002 },
   { botEaten with destroyed := true })

/-- `Player.canEatFood` (src/src/player.ts:56-72): false if the food is
destroyed, else compares the squared center distance with the consumer's
squared radius. -/
def canEatFood (p : PlayerState) (food : FoodEnt) : Prop :=
  if food.destroyed then False
  else
    (food.x - p.x) * (food.x - p.x) + (food.y - p.y) * (food.y - p.y) ≤ p.radius * p.radius

/-- `Player.canEatBot` (src/src/player.ts:81-97): same shape as `canEatFood`. -/
def canEatBot (p : PlayerState) (bot : BotEnt) : Prop :=
  if bot.destroyed then False
  else
    (bot.x - p.x) * (bot.x - p.x) + (bot.y - p.y) * (bot.y - p.y) ≤ p.radius * p.radius

/-- Modelled from the spec: `Player.canEatPlayer` is called by the tick
(main module, players loop) but its definition is not among the sources.
Following §4.1 (`canConsume`): returns false if the target is destroyed,
else true iff the squared center distance is at most the consumer's squared
radius. -/
def canEatPlayer (p : PlayerState) (target : RemotePlayer) : Prop :=
  if target.destroyed then False
  else
    (target.x - p.x) * (target.x - p.x) + (target.y - p.y) * (target.y - p.y) ≤
      p.radius * p.radius

/-- `Player.calculateMaxDistance` (src/src/player.ts:100-105): the viewport
half-diagonal. -/
noncomputable def calculateMaxDistance (screen : Rect) : ℝ :=
  Real.sqrt ((screen.width / 2) * (screen.width / 2) + (screen.height / 2) * (screen.height / 2))

/-- The local `dx` of `Player.moveTowards`: pointer x offset from the viewport
center. -/
noncomputable def moveDx (screen : Rect) (x : ℝ) : ℝ := x - screen.width / 2

/-- The local `dy` of `Player.moveTowards`: pointer y offset from the viewport
center. -/
noncomputable def moveDy (screen : Rect) (y : ℝ) : ℝ := y - screen.height / 2

/-- The local `delta` of `Player.moveTowards`: magnitude of the pointer offset. -/
noncomputable def moveDelta (screen : Rect) (x y : ℝ) : ℝ :=
  Real.sqrt (moveDx screen x * moveDx screen x + moveDy screen y * moveDy screen y)

/-- The local `normalizedDistance` of `Player.moveTowards`:
`min((delta / maxDistance) * 2, 1)`. -/
noncomputable def normalizedDistance (screen : Rect) (x y : ℝ) : ℝ :=
  min (moveDelta screen x y / calculateMaxDistance screen * 2) 1

/-- The local `velocity` of `Player.moveTowards`:
`normalizedDistance * velocityMagnitude / sqrt(radius / 20)`. -/
noncomputable def moveVelocity (screen : Rect) (radius x y : ℝ) : ℝ :=
  normalizedDistance screen x y * velocityMagnitude / Real.sqrt (radius / 20)

/-- `Player.moveTowards` (src/src/player.ts:107-129): when `delta > 3`, move by
the unit offset direction times `velocity`, then clamp both axes into the world
bounds with `max(0, min(·, bound))`; otherwise the position is untouched. -/
noncomputable def moveTowards (wb : WorldBounds) (p : PlayerState) (screen : Rect) (x y : ℝ) :
    PlayerState :=
  if moveDelta screen x y > 3 then
    { p with
      x := max 0 (min (p.x + moveDx screen x / moveDelta screen x y *
              moveVelocity screen p.radius x y) wb.width),
      y := max 0 (min (p.y + moveDy screen y / moveDelta screen x y *
              moveVelocity screen p.radius x y) wb.height) }
  else p

/-- `lerp` (main module): `start * (1 - t) + end * t`. The source's second
parameter is named `end`, a Lean keyword, hence `finish`. -/
noncomputable def lerp (start finish t : ℝ) : ℝ := start * (1 - t) + finish * t

/-- Iterated application of the camera smoothing step
`value = lerp(value, target, 0.05)` from a starting value. -/
noncomputable def lerpIter (v target : ℝ) : ℕ → ℝ
  | 0 => v
  | n + 1 => lerp (lerpIter v target n) target 0.05

/-- The per-tick target zoom computed in the main loop: for `radius < 80`,
`max(0.1, min(1, 50 / log(radius)))`, otherwise
`max(0.1, min(1, 100 / (radius - 80)))` (`Math.log` is the natural log). -/
noncomputable def zoomTarget (radius : ℝ) : ℝ :=
  if radius < 80 then max 0.1 (min 1 (50 / Real.log radius))
  else max 0.1 (min 1 (100 / (radius - 80)))

/-- Clamp `x` into `[lo, hi]`, as the spec writes the zoom formula. -/
noncomputable def clamp (lo hi x : ℝ) : ℝ := max lo (min hi x)

/-- An outbound message to the network collaborator emitted during a tick. -/
inductive Intent where
  | sendMovement (x y : ℝ)
  | sendEatFood (x y : ℤ) (radius : ℤ)
  | sendEatPlayer (id : ℕ) (radius : ℝ)

/-- One iteration of the tick's `network.foods.forEach` body: if the food can
be eaten, eat it (radius update + destruction) and emit
`sendEatFood({X: floor(x), Y: floor(y)}, floor(player.radius))` with the
already-updated radius; otherwise the food passes through unchanged. The
accumulator carries the player state, the foods processed so far and the
intents emitted so far. -/
noncomputable def foodStep (FOOD_RADIUS : ℝ)
    (acc : PlayerState × List FoodEnt × List Intent) (f : FoodEnt) :
    PlayerState × List FoodEnt × List Intent :=
  if canEatFood acc.1 f then
    ((eatFood FOOD_RADIUS acc.1 f).1,
     acc.2.1 ++ [(eatFood FOOD_RADIUS acc.1 f).2],
     acc.2.2 ++ [Intent.sendEatFood ⌊f.x⌋ ⌊f.y⌋ ⌊(eatFood FOOD_RADIUS acc.1 f).1.radius⌋])
  else (acc.1, acc.2.1 ++ [f], acc.2.2)

/-- One iteration of the tick's `network.players.forEach` body: if the player
can be eaten, then when its id is defined, first emit
`sendEatPlayer(p.id, player.radius)` with the radius the consumer has at that
moment, then apply `eatPlayer`; in both id cases the target ends destroyed
(`p.destroy()`). A non-colliding player passes through unchanged. -/
noncomputable def playersStep
    (acc : PlayerState × List RemotePlayer × List Intent) (pl : RemotePlayer) :
    PlayerState × List RemotePlayer × List Intent :=
  if canEatPlayer acc.1 pl then
    match pl.id with
    | some i =>
        ((eatPlayer acc.1 pl).1,
         acc.2.1 ++ [{ pl with destroyed := true }],
         acc.2.2 ++ [Intent.sendEatPlayer i acc.1.radius])
    | none => (acc.1, acc.2.1 ++ [{ pl with destroyed := true }], acc.2.2)
  else (acc.1, acc.2.1 ++ [pl], acc.2.2)

/-- The tick's foods scan, as a left fold of `foodStep` over the food list. -/
noncomputable def runFoods (FOOD_RADIUS : ℝ) (p : PlayerState) (foods : List FoodEnt) :
    PlayerState × List FoodEnt × List Intent :=
  foods.foldl (foodStep FOOD_RADIUS) (p, [], [])

/-- The tick's players scan, as a left fold of `playersStep` over the player
list. -/
noncomputable def runPlayers (p : PlayerState) (players : List RemotePlayer) :
    PlayerState × List RemotePlayer × List Intent :=
  players.foldl playersStep (p, [], [])

/-- The world container's camera state: `world.scale` and `world.position`. -/
structure Camera where
  scaleX : ℝ
  scaleY : ℝ
  posX : ℝ
  posY : ℝ

/-- The camera block of the tick: compute the target zoom from the player's
radius, smooth both scale axes toward it with `lerp(·, zoom, 0.05)`, then
smooth the position toward `screenCenter - playerPos * newScale` (the source
reads `world.scale` after having set it). -/
noncomputable def cameraStep (screen : Rect) (p : PlayerState) (cam : Camera) : Camera :=
  { scaleX := lerp cam.scaleX (zoomTarget p.radius) 0.05,
    scaleY := lerp cam.scaleY (zoomTarget p.radius) 0.05,
    posX := lerp cam.posX
      (screen.width / 2 - p.x * lerp cam.scaleX (zoomTarget p.radius) 0.05) 0.05,
    posY := lerp cam.posY
      (screen.height / 2 - p.y * lerp cam.scaleY (zoomTarget p.radius) 0.05) 0.05 }

/-- The mutable state read and written by one tick of `app.ticker.add`. -/
structure TickState where
  player : PlayerState
  foods : List FoodEnt
  players : List RemotePlayer
  camera : Camera

/-- One tick of the game loop (main module): if connected, move the player
toward the pointer and emit `sendMovement`; then scan the foods, then the
remote players (both scans run regardless of connectivity); finally update the
camera. Returns the new state together with the list of emitted intents, in
emission order. -/
noncomputable def tick (FOOD_RADIUS : ℝ) (connected : Bool) (screen : Rect)
    (pointerX pointerY : ℝ) (wb : WorldBounds) (st : TickState) : TickState × List Intent :=
  let p1 := if connected then moveTowards wb st.player screen pointerX pointerY else st.player
  let movementIntents : List Intent :=
    if connected then [Intent.sendMovement p1.x p1.y] else []
  let rf := runFoods FOOD_RADIUS p1 st.foods
  let rp := runPlayers rf.1 st.players
  (⟨rp.1, rf.2.1, rp.2.1, cameraStep screen rp.1 st.camera⟩,
   movementIntents ++ rf.2.2 ++ rp.2.2)

/-! ## Helper lemmas -/

/-- In the dead-zone (`delta ≤ 3`) the guard of `moveTowards` fails and the
state is returned untouched. -/
lemma moveTowards_no_step (wb : WorldBounds) (p : PlayerState) (screen : Rect) (x y : ℝ)
    (h : moveDelta screen x y ≤ 3) : moveTowards wb p screen x y = p := by
  unfold moveTowards
  rw [if_neg (not_lt.mpr h)]

/-- With an 800 × 600 viewport and the pointer at (400, 300), the pointer
offset from the viewport center is zero. -/
lemma moveDelta_center : moveDelta ⟨800, 600⟩ 400 300 = 0 := by
  simp only [moveDelta, moveDx, moveDy]
  norm_num [Real.sqrt_zero]

/-! ## Claims -/

/-- Claim C1, counterexample: the claim asserts the 1.002 bonus is applied when
the target is a (moving) Player, but `Player.eatPlayer` applies no bonus:
eating a radius-4 player at consumer radius 3 yields exactly 5, not
`sqrt(3² + 4²) * 1.002`. -/
theorem eat_growth_bonus_counterexample :
    (eatPlayer ⟨0, 0, 3⟩ ⟨0, 0, 4, false, none⟩).1.radius ≠
      Real.sqrt ((3 : ℝ) ^ 2 + 4 ^ 2) * 1.002 := by
  have h2 : Real.sqrt ((3 : ℝ) ^ 2 + 4 ^ 2) = 5 := by
    rw [show (3 : ℝ) ^ 2 + 4 ^ 2 = 5 ^ 2 by norm_num]
    exact Real.sqrt_sq (by norm_num)
  simp only [eatPlayer]
  rw [show (3 : ℝ) * 3 + 4 * 4 = 3 ^ 2 + 4 ^ 2 by norm_num, h2]
  norm_num

/-- Claim C1 (amended): for every consumer radius r1 ≥ 0 and target radius
r2 ≥ 0, consuming composes areas, `newRadius = sqrt(r1² + r2²)`, with the fixed
bonus multiplier 1.002 applied after the square root exactly when the target is
Food or a Bot; consuming another Player gets no bonus. -/
theorem eat_growth_formulas (p : PlayerState) (t : RemotePlayer) (b : BotEnt)
    (FOOD_RADIUS : ℝ) (f : FoodEnt)
    (hp : 0 ≤ p.radius) (ht : 0 ≤ t.radius) (hb : 0 ≤ b.radius) (hF : 0 ≤ FOOD_RADIUS) :
    (eatPlayer p t).1.radius = Real.sqrt (p.radius ^ 2 + t.radius ^ 2) ∧
    (eatBot p b).1.radius = Real.sqrt (p.radius ^ 2 + b.radius ^ 2) * 1.002 ∧
    (eatFood FOOD_RADIUS p f).1.radius =
      Real.sqrt (p.radius ^ 2 + FOOD_RADIUS ^ 2) * 1.002 := by
  refine ⟨?_, ?_, ?_⟩
  · simp only [eatPlayer]
    rw [show p.radius * p.radius + t.radius * t.radius = p.radius ^ 2 + t.radius ^ 2 by ring]
  · simp only [eatBot]
    rw [show p.radius * p.radius + b.radius * b.radius = p.radius ^ 2 + b.radius ^ 2 by ring]
  · simp only [eatFood]
    rw [show p.radius * p.radius + FOOD_RADIUS * FOOD_RADIUS =
          p.radius ^ 2 + FOOD_RADIUS ^ 2 by ring]

/-- Witness for C1 at consumer radius 3, player/bot target radius 4, food
radius 5. -/
theorem eat_growth_formulas_witness :
    (eatPlayer ⟨0, 0, 3⟩ ⟨0, 0, 4, false, none⟩).1.radius = Real.sqrt ((3 : ℝ) ^ 2 + 4 ^ 2) ∧
    (eatBot ⟨0, 0, 3⟩ ⟨0, 0, 4, false⟩).1.radius = Real.sqrt ((3 : ℝ) ^ 2 + 4 ^ 2) * 1.002 ∧
    (eatFood 5 ⟨0, 0, 3⟩ ⟨0, 0, false⟩).1.radius = Real.sqrt ((3 : ℝ) ^ 2 + 5 ^ 2) * 1.002 :=
  eat_growth_formulas ⟨0, 0, 3⟩ ⟨0, 0, 4, false, none⟩ ⟨0, 0, 4, false⟩ 5 ⟨0, 0, false⟩
    (by norm_num) (by norm_num) (by norm_num) (by norm_num)

/-- Claim C3: `canEatFood` / `canEatBot` hold iff the target is not destroyed
and the squared center distance is at most the consumer's squared radius; the
target's own radius plays no role, and the predicates are pure (they are plain
functions of their two arguments). -/
theorem canEat_characterization (p : PlayerState) (f : FoodEnt) (b : BotEnt) :
    (canEatFood p f ↔
      f.destroyed = false ∧ (f.x - p.x) ^ 2 + (f.y - p.y) ^ 2 ≤ p.radius ^ 2) ∧
    (canEatBot p b ↔
      b.destroyed = false ∧ (b.x - p.x) ^ 2 + (b.y - p.y) ^ 2 ≤ p.radius ^ 2) := by
  constructor
  · unfold canEatFood
    cases hf : f.destroyed <;> simp [hf, pow_two]
  · unfold canEatBot
    cases hb : b.destroyed <;> simp [hb, pow_two]

/-- Claim C5, counterexample: with the pointer at the viewport center
(dead-zone) and a starting position already outside the world bounds,
`moveTowards` performs no clamping and the position stays out of bounds. -/
theorem moveTowards_bounds_counterexample :
    moveTowards ⟨100, 100⟩ ⟨-5, 0, 30⟩ ⟨800, 600⟩ 400 300 = ⟨-5, 0, 30⟩ ∧
    ¬ (0 ≤ (-5 : ℝ)) := by
  refine ⟨?_, by norm_num⟩
  exact moveTowards_no_step _ _ _ _ _ (by rw [moveDelta_center]; norm_num)

/-- Claim C5 (amended): for nonnegative world bounds, a starting position
inside `[0, width] × [0, height]` stays inside after any `moveTowards` call:
a movement step (`delta > 3`) hard-clamps both axes into the bounds, and
otherwise the position is unchanged. -/
theorem moveTowards_in_bounds (wb : WorldBounds) (p : PlayerState) (screen : Rect) (x y : ℝ)
    (hw : 0 ≤ wb.width) (hh : 0 ≤ wb.height)
    (hx0 : 0 ≤ p.x) (hx1 : p.x ≤ wb.width) (hy0 : 0 ≤ p.y) (hy1 : p.y ≤ wb.height) :
    0 ≤ (moveTowards wb p screen x y).x ∧ (moveTowards wb p screen x y).x ≤ wb.width ∧
    0 ≤ (moveTowards wb p screen x y).y ∧ (moveTowards wb p screen x y).y ≤ wb.height := by
  unfold moveTowards
  split
  · exact ⟨le_max_left _ _, max_le hw (min_le_right _ _),
      le_max_left _ _, max_le hh (min_le_right _ _)⟩
  · exact ⟨hx0, hx1, hy0, hy1⟩

/-- Witness for C5: an in-bounds start with the pointer far from the center
(the clamping branch runs) stays inside the 100 × 100 world. -/
theorem moveTowards_in_bounds_witness :
    0 ≤ (moveTowards ⟨100, 100⟩ ⟨50, 50, 30⟩ ⟨800, 600⟩ 0 0).x ∧
    (moveTowards ⟨100, 100⟩ ⟨50, 50, 30⟩ ⟨800, 600⟩ 0 0).x ≤ 100 ∧
    0 ≤ (moveTowards ⟨100, 100⟩ ⟨50, 50, 30⟩ ⟨800, 600⟩ 0 0).y ∧
    (moveTowards ⟨100, 100⟩ ⟨50, 50, 30⟩ ⟨800, 600⟩ 0 0).y ≤ 100 :=
  moveTowards_in_bounds ⟨100, 100⟩ ⟨50, 50, 30⟩ ⟨800, 600⟩ 0 0
    (by norm_num) (by norm_num) (by norm_num) (by norm_num) (by norm_num) (by norm_num)

/-- Claim C6: in the dead-zone — pointer offset magnitude `delta ≤ 3` — the
position (indeed the whole player state) is exactly unchanged by
`moveTowards`, for any radius, viewport and world bounds. -/
theorem moveTowards_deadzone (wb : WorldBounds) (p : PlayerState) (screen : Rect) (x y : ℝ)
    (h : moveDelta screen x y ≤ 3) : moveTowards wb p screen x y = p :=
  moveTowards_no_step wb p screen x y h

/-- Witness for C6: pointer exactly at the center of an 800 × 600 viewport. -/
theorem moveTowards_deadzone_witness :
    moveDelta ⟨800, 600⟩ 400 300 ≤ 3 ∧
    moveTowards ⟨100, 100⟩ ⟨5, 5, 30⟩ ⟨800, 600⟩ 400 300 = ⟨5, 5, 30⟩ := by
  have h : moveDelta ⟨800, 600⟩ 400 300 ≤ 3 := by rw [moveDelta_center]; norm_num
  exact ⟨h, moveTowards_deadzone _ _ _ _ _ h⟩

/-- Claim C7: when `delta > 3`, the displacement step applied to the position
(before boundary clamping) has Euclidean magnitude
`min((delta / maxDistance) * 2, 1) * velocityMagnitude / sqrt(radius / 20)`,
with `maxDistance` the viewport half-diagonal; in particular at the neutral
radius 20 with the normalized distance saturated the speed equals
`velocityMagnitude`. -/
theorem moveTowards_speed (screen : Rect) (radius x y : ℝ)
    (h : 3 < moveDelta screen x y) :
    Real.sqrt ((moveDx screen x / moveDelta screen x y * moveVelocity screen radius x y) ^ 2 +
        (moveDy screen y / moveDelta screen x y * moveVelocity screen radius x y) ^ 2) =
      min (moveDelta screen x y / calculateMaxDistance screen * 2) 1 * velocityMagnitude /
        Real.sqrt (radius / 20) ∧
    calculateMaxDistance screen =
      Real.sqrt ((screen.width / 2) ^ 2 + (screen.height / 2) ^ 2) ∧
    (radius = 20 → 1 ≤ moveDelta screen x y / calculateMaxDistance screen * 2 →
      moveVelocity screen radius x y = velocityMagnitude) := by
  have hδ : 0 < moveDelta screen x y := lt_trans (by norm_num) h
  have hne : moveDelta screen x y ≠ 0 := ne_of_gt hδ
  have hδ2 : moveDelta screen x y ^ 2 =
      moveDx screen x * moveDx screen x + moveDy screen y * moveDy screen y := by
    unfold moveDelta
    exact Real.sq_sqrt (add_nonneg (mul_self_nonneg _) (mul_self_nonneg _))
  have hv : 0 ≤ moveVelocity screen radius x y := by
    unfold moveVelocity normalizedDistance velocityMagnitude
    apply div_nonneg _ (Real.sqrt_nonneg _)
    apply mul_nonneg _ (by norm_num)
    exact le_min (mul_nonneg (div_nonneg (Real.sqrt_nonneg _) (Real.sqrt_nonneg _))
      (by norm_num)) (by norm_num)
  refine ⟨?_, ?_, ?_⟩
  · have key : (moveDx screen x / moveDelta screen x y * moveVelocity screen radius x y) ^ 2 +
        (moveDy screen y / moveDelta screen x y * moveVelocity screen radius x y) ^ 2 =
        moveVelocity screen radius x y ^ 2 := by
      have hsplit : (moveDx screen x / moveDelta screen x y *
            moveVelocity screen radius x y) ^ 2 +
          (moveDy screen y / moveDelta screen x y * moveVelocity screen radius x y) ^ 2 =
          (moveDx screen x * moveDx screen x + moveDy screen y * moveDy screen y) *
            (moveVelocity screen radius x y ^ 2 / moveDelta screen x y ^ 2) := by
        field_simp
        ring
      rw [hsplit, ← hδ2, mul_comm, div_mul_cancel₀ _ (pow_ne_zero 2 hne)]
    rw [key, Real.sqrt_sq hv]
    unfold moveVelocity normalizedDistance
    rfl
  · unfold calculateMaxDistance
    rw [show screen.width / 2 * (screen.width / 2) + screen.height / 2 * (screen.height / 2) =
          (screen.width / 2) ^ 2 + (screen.height / 2) ^ 2 by ring]
  · intro h20 hsat
    unfold moveVelocity normalizedDistance
    rw [min_eq_right hsat, h20]
    rw [show (20 : ℝ) / 20 = 1 by norm_num, Real.sqrt_one]
    rw [one_mul, div_one]

/-- Witness for C7: 800 × 600 viewport with the pointer at its far corner
(delta = 500 = maxDistance, normalized distance saturated) and radius 20. -/
theorem moveTowards_speed_witness :
    3 < moveDelta ⟨800, 600⟩ 800 600 ∧
    moveVelocity ⟨800, 600⟩ 20 800 600 = velocityMagnitude := by
  have hδ : moveDelta ⟨800, 600⟩ 800 600 = 500 := by
    simp only [moveDelta, moveDx, moveDy]
    rw [show ((800 : ℝ) - 800 / 2) * (800 - 800 / 2) + (600 - 600 / 2) * (600 - 600 / 2) =
          500 ^ 2 by norm_num]
    exact Real.sqrt_sq (by norm_num)
  have hmax : calculateMaxDistance ⟨800, 600⟩ = 500 := by
    simp only [calculateMaxDistance]
    rw [show (800 : ℝ) / 2 * (800 / 2) + 600 / 2 * (600 / 2) = 500 ^ 2 by norm_num]
    exact Real.sqrt_sq (by norm_num)
  have h3 : 3 < moveDelta ⟨800, 600⟩ 800 600 := by rw [hδ]; norm_num
  refine ⟨h3, (moveTowards_speed ⟨800, 600⟩ 20 800 600 h3).2.2 rfl ?_⟩
  rw [hδ, hmax]; norm_num

/-- Claim C8: the per-tick target zoom is `clamp(50 / ln(radius), 0.1, 1)` for
`radius < 80` and `clamp(100 / (radius - 80), 0.1, 1)` for `radius ≥ 80`, and
it is non-increasing in the radius on (1, 80) and on (80, ∞). -/
theorem zoomTarget_formula_monotone (r1 r2 : ℝ) (h12 : r1 ≤ r2) :
    (r1 < 80 → zoomTarget r1 = clamp 0.1 1 (50 / Real.log r1)) ∧
    (80 ≤ r1 → zoomTarget r1 = clamp 0.1 1 (100 / (r1 - 80))) ∧
    (1 < r1 → r2 < 80 → zoomTarget r2 ≤ zoomTarget r1) ∧
    (80 < r1 → zoomTarget r2 ≤ zoomTarget r1) := by
  refine ⟨?_, ?_, ?_, ?_⟩
  · intro h
    unfold zoomTarget clamp
    rw [if_pos h]
  · intro h
    unfold zoomTarget clamp
    rw [if_neg (not_lt.mpr h)]
  · intro h1 h2
    have hr1 : r1 < 80 := lt_of_le_of_lt h12 h2
    unfold zoomTarget
    rw [if_pos hr1, if_pos h2]
    refine max_le_max le_rfl (min_le_min le_rfl ?_)
    have hl1 : 0 < Real.log r1 := Real.log_pos h1
    have hl12 : Real.log r1 ≤ Real.log r2 := Real.log_le_log (by linarith) h12
    gcongr
  · intro h1
    have h2 : 80 < r2 := lt_of_lt_of_le h1 h12
    unfold zoomTarget
    rw [if_neg (not_lt.mpr h1.le), if_neg (not_lt.mpr h2.le)]
    refine max_le_max le_rfl (min_le_min le_rfl ?_)
    have hp1 : 0 < r1 - 80 := by linarith
    have hle : r1 - 80 ≤ r2 - 80 := by linarith
    gcongr

/-- Witness for C8: 2 ≤ 3 inside (1, 80), and 90 ≤ 100 inside (80, ∞). -/
theorem zoomTarget_formula_monotone_witness :
    (zoomTarget 3 ≤ zoomTarget 2 ∧ zoomTarget 2 = clamp 0.1 1 (50 / Real.log 2)) ∧
    (zoomTarget 100 ≤ zoomTarget 90 ∧ zoomTarget 90 = clamp 0.1 1 (100 / (90 - 80))) :=
  ⟨⟨(zoomTarget_formula_monotone 2 3 (by norm_num)).2.2.1 (by norm_num) (by norm_num),
    (zoomTarget_formula_monotone 2 3 (by norm_num)).1 (by norm_num)⟩,
   ⟨(zoomTarget_formula_monotone 90 100 (by norm_num)).2.2.2 (by norm_num),
    (zoomTarget_formula_monotone 90 100 (by norm_num)).2.1 (by norm_num)⟩⟩

/-- Claim C9: the camera smoothing step is
`lerp(value, target, 0.05) = value * 0.95 + target * 0.05`; a single step
shrinks the error toward a fixed target by exactly the factor 0.95, and the
iterated step converges to the target (the error after n steps is
`0.95 ^ n` times the initial error). -/
theorem lerp_smoothing_convergence (v target : ℝ) (n : ℕ) :
    lerp v target 0.05 = v * 0.95 + target * 0.05 ∧
    |lerp v target 0.05 - target| = 0.95 * |v - target| ∧
    lerpIter v target n - target = 0.95 ^ n * (v - target) ∧
    Filter.Tendsto (lerpIter v target) Filter.atTop (nhds target) := by
  have key : ∀ m : ℕ, lerpIter v target m - target = 0.95 ^ m * (v - target) := by
    intro m
    induction m with
    | zero => simp [lerpIter]
    | succ k ih =>
      have : lerpIter v target (k + 1) - target = 0.95 * (lerpIter v target k - target) := by
        simp only [lerpIter, lerp]
        ring
      rw [this, ih, pow_succ]
      ring
  refine ⟨by unfold lerp; ring, ?_, key n, ?_⟩
  · have h : lerp v target 0.05 - target = 0.95 * (v - target) := by unfold lerp; ring
    rw [h, abs_mul, abs_of_pos (show (0 : ℝ) < 0.95 by norm_num)]
  · have h0 : Filter.Tendsto (fun m : ℕ => (0.95 : ℝ) ^ m) Filter.atTop (nhds 0) :=
      tendsto_pow_atTop_nhds_zero_of_lt_one (by norm_num) (by norm_num)
    have h1 := (h0.mul_const (v - target)).const_add target
    have h2 : (fun m : ℕ => target + 0.95 ^ m * (v - target)) = lerpIter v target := by
      funext m
      have := key m
      linarith
    rw [h2] at h1
    simpa using h1

/-- `foodStep` only ever changes the player's radius, never its position. -/
lemma foodStep_pos (F : ℝ) (acc : PlayerState × List FoodEnt × List Intent) (f : FoodEnt) :
    (foodStep F acc f).1.x = acc.1.x ∧ (foodStep F acc f).1.y = acc.1.y := by
  unfold foodStep eatFood
  split <;> simp

/-- The foods scan only ever changes the player's radius, never its position. -/
lemma foldl_foodStep_pos (F : ℝ) (foods : List FoodEnt) :
    ∀ acc : PlayerState × List FoodEnt × List Intent,
      (List.foldl (foodStep F) acc foods).1.x = acc.1.x ∧
      (List.foldl (foodStep F) acc foods).1.y = acc.1.y := by
  induction foods with
  | nil => intro acc; exact ⟨rfl, rfl⟩
  | cons f fs ih =>
    intro acc
    rw [List.foldl_cons]
    obtain ⟨hx, hy⟩ := ih (foodStep F acc f)
    obtain ⟨hx2, hy2⟩ := foodStep_pos F acc f
    exact ⟨hx.trans hx2, hy.trans hy2⟩

/-- `playersStep` only ever changes the player's radius, never its position. -/
lemma playersStep_pos (acc : PlayerState × List RemotePlayer × List Intent)
    (pl : RemotePlayer) :
    (playersStep acc pl).1.x = acc.1.x ∧ (playersStep acc pl).1.y = acc.1.y := by
  unfold playersStep
  split
  · split <;> simp [eatPlayer]
  · simp

/-- The players scan only ever changes the player's radius, never its
position. -/
lemma foldl_playersStep_pos (players : List RemotePlayer) :
    ∀ acc : PlayerState × List RemotePlayer × List Intent,
      (List.foldl playersStep acc players).1.x = acc.1.x ∧
      (List.foldl playersStep acc players).1.y = acc.1.y := by
  induction players with
  | nil => intro acc; exact ⟨rfl, rfl⟩
  | cons pl ps ih =>
    intro acc
    rw [List.foldl_cons]
    obtain ⟨hx, hy⟩ := ih (playersStep acc pl)
    obtain ⟨hx2, hy2⟩ := playersStep_pos acc pl
    exact ⟨hx.trans hx2, hy.trans hy2⟩

/-- Every intent appended by `foodStep` is a `sendEatFood`. -/
lemma foodStep_intents_mem (F : ℝ) (acc : PlayerState × List FoodEnt × List Intent)
    (f : FoodEnt) (i : Intent) (h : i ∈ (foodStep F acc f).2.2) :
    i ∈ acc.2.2 ∨ ∃ a b c, i = Intent.sendEatFood a b c := by
  unfold foodStep at h
  split at h
  · simp only [List.mem_append, List.mem_singleton] at h
    rcases h with h | h
    · exact Or.inl h
    · exact Or.inr ⟨_, _, _, h⟩
  · exact Or.inl h

/-- Every intent appended by the foods scan is a `sendEatFood`. -/
lemma foldl_foodStep_intents (F : ℝ) (foods : List FoodEnt) :
    ∀ (acc : PlayerState × List FoodEnt × List Intent) (i : Intent),
      i ∈ (List.foldl (foodStep F) acc foods).2.2 →
      i ∈ acc.2.2 ∨ ∃ a b c, i = Intent.sendEatFood a b c := by
  induction foods with
  | nil => intro acc i h; exact Or.inl h
  | cons f fs ih =>
    intro acc i h
    rw [List.foldl_cons] at h
    rcases ih (foodStep F acc f) i h with h' | h'
    · exact foodStep_intents_mem F acc f i h'
    · exact Or.inr h'

/-- Every intent appended by `playersStep` is a `sendEatPlayer`. -/
lemma playersStep_intents_mem (acc : PlayerState × List RemotePlayer × List Intent)
    (pl : RemotePlayer) (i : Intent) (h : i ∈ (playersStep acc pl).2.2) :
    i ∈ acc.2.2 ∨ ∃ n r, i = Intent.sendEatPlayer n r := by
  unfold playersStep at h
  split at h
  · split at h
    · simp only [List.mem_append, List.mem_singleton] at h
      rcases h with h | h
      · exact Or.inl h
      · exact Or.inr ⟨_, _, h⟩
    · exact Or.inl h
  · exact Or.inl h

/-- Every intent appended by the players scan is a `sendEatPlayer`. -/
lemma foldl_playersStep_intents (players : List RemotePlayer) :
    ∀ (acc : PlayerState × List RemotePlayer × List Intent) (i : Intent),
      i ∈ (List.foldl playersStep acc players).2.2 →
      i ∈ acc.2.2 ∨ ∃ n r, i = Intent.sendEatPlayer n r := by
  induction players with
  | nil => intro acc i h; exact Or.inl h
  | cons pl ps ih =>
    intro acc i h
    rw [List.foldl_cons] at h
    rcases ih (playersStep acc pl) i h with h' | h'
    · exact playersStep_intents_mem acc pl i h'
    · exact Or.inr h'

/-- Claim C2 (amended): when the network collaborator reports not connected,
the tick skips only the movement phase: the player's position is unchanged and
no `sendMovement` intent is emitted. Collision evaluation still runs (see the
counterexample: it may destroy entities and emit consumption intents). -/
theorem tick_disconnected_no_movement (F : ℝ) (screen : Rect) (px py : ℝ)
    (wb : WorldBounds) (st : TickState) :
    (tick F false screen px py wb st).1.player.x = st.player.x ∧
    (tick F false screen px py wb st).1.player.y = st.player.y ∧
    ∀ a b : ℝ, Intent.sendMovement a b ∉ (tick F false screen px py wb st).2 := by
  unfold tick runFoods runPlayers
  simp only [if_neg Bool.false_ne_true, List.nil_append]
  obtain ⟨hpx, hpy⟩ := foldl_playersStep_pos st.players
    ((List.foldl (foodStep F) (st.player, [], []) st.foods).1, [], [])
  obtain ⟨hfx, hfy⟩ := foldl_foodStep_pos F st.foods (st.player, [], [])
  refine ⟨hpx.trans hfx, hpy.trans hfy, ?_⟩
  intro a b h
  rcases List.mem_append.mp h with h' | h'
  · rcases foldl_foodStep_intents F st.foods (st.player, [], []) _ h' with h'' | ⟨_, _, _, h''⟩
    · simp at h''
    · simp at h''
  · rcases foldl_playersStep_intents st.players
        ((List.foldl (foodStep F) (st.player, [], []) st.foods).1, [], []) _ h' with
      h'' | ⟨_, _, h''⟩
    · simp at h''
    · simp at h''

/-- Witness for C2 at a concrete disconnected tick. -/
theorem tick_disconnected_no_movement_witness :
    (tick 5 false ⟨800, 600⟩ 0 0 ⟨10000, 10000⟩
        ⟨⟨0, 0, 30⟩, [], [], ⟨1, 1, 0, 0⟩⟩).1.player.x = 0 ∧
    Intent.sendMovement 1 2 ∉
      (tick 5 false ⟨800, 600⟩ 0 0 ⟨10000, 10000⟩ ⟨⟨0, 0, 30⟩, [], [], ⟨1, 1, 0, 0⟩⟩).2 :=
  ⟨(tick_disconnected_no_movement 5 ⟨800, 600⟩ 0 0 ⟨10000, 10000⟩
      ⟨⟨0, 0, 30⟩, [], [], ⟨1, 1, 0, 0⟩⟩).1,
   (tick_disconnected_no_movement 5 ⟨800, 600⟩ 0 0 ⟨10000, 10000⟩
      ⟨⟨0, 0, 30⟩, [], [], ⟨1, 1, 0, 0⟩⟩).2.2 1 2⟩

/-- Claim C2, counterexample: a disconnected tick still evaluates collisions —
with one edible food next to the player it destroys the food and emits an
intent even though `isConnected()` is false. -/
theorem tick_disconnected_counterexample :
    (tick 5 false ⟨800, 600⟩ 0 0 ⟨10000, 10000⟩
        ⟨⟨0, 0, 30⟩, [⟨1, 1, false⟩], [], ⟨1, 1, 0, 0⟩⟩).1.foods = [⟨1, 1, true⟩] ∧
    (tick 5 false ⟨800, 600⟩ 0 0 ⟨10000, 10000⟩
        ⟨⟨0, 0, 30⟩, [⟨1, 1, false⟩], [], ⟨1, 1, 0, 0⟩⟩).2 ≠ [] := by
  have hc : canEatFood ⟨0, 0, 30⟩ ⟨1, 1, false⟩ := by
    unfold canEatFood
    norm_num
  unfold tick runFoods runPlayers
  simp only [if_neg Bool.false_ne_true, List.foldl_cons, List.foldl_nil]
  unfold foodStep
  rw [if_pos hc]
  simp [eatFood]

/-- Claim C4, counterexample: a consumer of radius 3 eats a remote player of
radius 4 (id 7); the resulting radius is 5 but the emitted `sendEatPlayer`
intent carries the pre-consumption radius 3. -/
theorem sendEatPlayer_radius_counterexample :
    (tick 5 false ⟨800, 600⟩ 0 0 ⟨10000, 10000⟩
        ⟨⟨0, 0, 3⟩, [], [⟨0, 0, 4, false, some 7⟩], ⟨1, 1, 0, 0⟩⟩).1.player.radius = 5 ∧
    (tick 5 false ⟨800, 600⟩ 0 0 ⟨10000, 10000⟩
        ⟨⟨0, 0, 3⟩, [], [⟨0, 0, 4, false, some 7⟩], ⟨1, 1, 0, 0⟩⟩).2 =
      [Intent.sendEatPlayer 7 3] ∧
    (5 : ℝ) ≠ 3 := by
  have hc : canEatPlayer ⟨0, 0, 3⟩ ⟨0, 0, 4, false, some 7⟩ := by
    unfold canEatPlayer
    norm_num
  have h5 : Real.sqrt ((3 : ℝ) * 3 + 4 * 4) = 5 := by
    rw [show (3 : ℝ) * 3 + 4 * 4 = 5 ^ 2 by norm_num]
    exact Real.sqrt_sq (by norm_num)
  unfold tick runFoods runPlayers
  simp only [if_neg Bool.false_ne_true, List.foldl_cons, List.foldl_nil]
  unfold playersStep
  rw [if_pos hc]
  simp [eatPlayer, h5]

/-- Claim C4 (amended): when the local player consumes a remote player whose
id is defined, the `sendEatPlayer` intent carries the consumer's radius from
before that consumption, while the consumer's radius afterwards is the
area-additive `sqrt(r_before² + target²)`. -/
theorem sendEatPlayer_pre_radius (acc : PlayerState × List RemotePlayer × List Intent)
    (pl : RemotePlayer) (i : ℕ) (hc : canEatPlayer acc.1 pl) (hid : pl.id = some i) :
    (playersStep acc pl).2.2 = acc.2.2 ++ [Intent.sendEatPlayer i acc.1.radius] ∧
    (playersStep acc pl).1.radius = Real.sqrt (acc.1.radius ^ 2 + pl.radius ^ 2) := by
  unfold playersStep
  rw [if_pos hc, hid]
  refine ⟨rfl, ?_⟩
  simp only [eatPlayer]
  rw [show acc.1.radius * acc.1.radius + pl.radius * pl.radius =
        acc.1.radius ^ 2 + pl.radius ^ 2 by ring]

/-- Witness for C4: the consumer at radius 3 eats the id-7 player of
radius 4. -/
theorem sendEatPlayer_pre_radius_witness :
    canEatPlayer ⟨0, 0, 3⟩ ⟨0, 0, 4, false, some 7⟩ ∧
    (playersStep (⟨0, 0, 3⟩, [], []) ⟨0, 0, 4, false, some 7⟩).2.2 =
      [Intent.sendEatPlayer 7 3] ∧
    (playersStep (⟨0, 0, 3⟩, [], []) ⟨0, 0, 4, false, some 7⟩).1.radius =
      Real.sqrt ((3 : ℝ) ^ 2 + 4 ^ 2) := by
  have hc : canEatPlayer (⟨0, 0, 3⟩ : PlayerState) ⟨0, 0, 4, false, some 7⟩ := by
    unfold canEatPlayer
    norm_num
  have h := sendEatPlayer_pre_radius (⟨0, 0, 3⟩, [], []) ⟨0, 0, 4, false, some 7⟩ 7 hc rfl
  exact ⟨hc, by simpa using h.1, by simpa using h.2⟩

/-- Claim C10: in the players scan, every remote player the collision
predicate matches ends up destroyed; when its id is undefined the consumer's
state (in particular its radius) is unchanged and no intent is emitted. -/
theorem colliding_player_destroyed (acc : PlayerState × List RemotePlayer × List Intent)
    (pl : RemotePlayer) (hc : canEatPlayer acc.1 pl) :
    (playersStep acc pl).2.1 = acc.2.1 ++ [{ pl with destroyed := true }] ∧
    (pl.id = none → (playersStep acc pl).1 = acc.1 ∧ (playersStep acc pl).2.2 = acc.2.2) := by
  unfold playersStep
  rw [if_pos hc]
  constructor
  · cases pl.id <;> rfl
  · intro hid
    rw [hid]
    exact ⟨rfl, rfl⟩

/-- Witness for C10: a colliding remote player with undefined id is destroyed
while the consumer and the intent list stay as they were. -/
theorem colliding_player_destroyed_witness :
    canEatPlayer ⟨0, 0, 3⟩ ⟨0, 0, 4, false, none⟩ ∧
    (playersStep (⟨0, 0, 3⟩, [], []) ⟨0, 0, 4, false, none⟩).2.1 = [⟨0, 0, 4, true, none⟩] ∧
    (playersStep (⟨0, 0, 3⟩, [], []) ⟨0, 0, 4, false, none⟩).1 = ⟨0, 0, 3⟩ ∧
    (playersStep (⟨0, 0, 3⟩, [], []) ⟨0, 0, 4, false, none⟩).2.2 = [] := by
  have hc : canEatPlayer (⟨0, 0, 3⟩ : PlayerState) ⟨0, 0, 4, false, none⟩ := by
    unfold canEatPlayer
    norm_num
  have h := colliding_player_destroyed (⟨0, 0, 3⟩, [], []) ⟨0, 0, 4, false, none⟩ hc
  exact ⟨hc, by simpa using h.1, (h.2 rfl).1, (h.2 rfl).2⟩

end Game
